import Mathlib

/-!
Verification of the render-farm coordinator (Divya0600/render).

This file gives a shallow embedding of the coordination subsystem:

* the batching algorithm of `src/Development/distributed_renderers.py`
  (`parse_frame_range`, `create_batches`, `create_sub_jobs`);
* the job-queue manager of `src/Development/job_queue_manager.py`
  (`get_next_job` with its memory cache, `complete_sub_job`, `pause_job`,
  `pause_all_jobs`), modelling the SQLite tables as lists of rows in
  insertion (rowid) order and `ORDER BY` as a stable sort on the ordering
  key (ties keep row order);
* the `/api/jobs/complete` route of `src/Distribution/server.py`;
* the subprocess-timeout computations of `src/Source/worker_node.py`
  (`render_nuke_production`, `render_silhouette_production`,
  `render_fusion_production`) and the per-renderer timeout multipliers of
  its default configuration.

Timestamp columns (`created_at` on jobs is kept as an abstract `Nat`;
`started_at`/`completed_at` are dropped) and the wall-clock staleness
eviction of the cache are not modelled; no property below mentions them.
Python strings are modelled as `List Char` obtained via `String.toList`.
-/

/-! ## Frame-range parsing and batching (distributed_renderers.py) -/

/-- Model of Python `str.split(sep)` for a single-character separator,
acting on the character list of the string. -/
def splitOnChar (c : Char) : List Char → List (List Char)
  | [] => [[]]
  | x :: xs =>
    let rest := splitOnChar c xs
    if x = c then [] :: rest
    else
      match rest with
      | [] => [[x]]
      | r :: rs => (x :: r) :: rs

/-- Model of Python `str.strip()` (the inputs of interest only carry the
space character as whitespace). -/
def stripChars (l : List Char) : List Char :=
  ((l.dropWhile (· = ' ')).reverse.dropWhile (· = ' ')).reverse

/-- Model of Python `int(s)` on a stripped string: defined exactly on
nonempty all-digit strings, as for the frame-range grammar terms. -/
def charsToNat (l : List Char) : Option Nat :=
  if l ≠ [] ∧ l.all (·.isDigit) then
    some (l.foldl (fun acc c => acc * 10 + (c.toNat - 48)) 0)
  else none

/-- One comma-separated part of a frame range: either a single integer or
`A-B`, which Python expands with `range(start, end + 1)`.
`start, end = map(int, part.split('-'))` requires exactly two parts. -/
def parseRangePart (part : List Char) : Option (List Nat) :=
  let part := stripChars part
  if part.contains '-' then
    match splitOnChar '-' part with
    | [a, b] =>
      match charsToNat a, charsToNat b with
      | some s, some e => some (List.range' s (e + 1 - s))
      | _, _ => none
    | _ => none
  else
    (charsToNat part).map (fun n => [n])

/-- Concatenation of the parsed parts; any failing part fails the parse,
as the Python `int` conversion raises through `parse_frame_range`. -/
def parseParts : List (List Char) → Option (List Nat)
  | [] => some []
  | p :: ps =>
    match parseRangePart p, parseParts ps with
    | some f, some rest => some (f ++ rest)
    | _, _ => none

/-- Stable insertion of `a` into `l`: `a` goes in front of the first
element it compares `le` to, so equal keys keep their input order. -/
def insertByLE (le : α → α → Bool) (a : α) : List α → List α
  | [] => [a]
  | b :: t => if le a b then a :: b :: t else b :: insertByLE le a t

/-- Stable insertion sort, used to model both Python `sorted` and the SQL
`ORDER BY` (SQLite returns tied rows in scan order, which for these
queries is rowid order; a stable sort over the row list captures that). -/
def sortByLE (le : α → α → Bool) : List α → List α
  | [] => []
  | x :: xs => insertByLE le x (sortByLE le xs)

/-- Model of `sorted(list(set(frames)))`: the ascending list of the
distinct elements. -/
def sortedDedup (l : List Nat) : List Nat :=
  sortByLE (fun a b => decide (a ≤ b)) l.dedup

/-- `parse_frame_range` of distributed_renderers.py: split on commas,
expand each part, then `sorted(list(set(frames)))`. -/
def parse_frame_range (s : String) : Option (List Nat) :=
  (parseParts (splitOnChar ',' s.toList)).map sortedDedup

/-- Fuel-indexed worker for `create_batches`' slicing loop
`for i in range(0, len(frames), batch_size)`. -/
def chunkListAux (bs : Nat) : Nat → List Nat → List (List Nat)
  | _, [] => []
  | 0, _ => []
  | fuel + 1, l => l.take bs :: chunkListAux bs fuel (l.drop bs)

/-- The consecutive slices `frames[i:i+batch_size]`.  Python raises on a
zero step, so the model is only meaningful for `bs ≥ 1`. -/
def chunkList (bs : Nat) (l : List Nat) : List (List Nat) :=
  if bs = 0 then [] else chunkListAux bs l.length l

/-- Rendering of one slice: a single frame prints bare, otherwise
`f"{batch_frames[0]}-{batch_frames[-1]}"`. -/
def renderRun (chunk : List Nat) : String :=
  match chunk with
  | [] => ""
  | [x] => toString x
  | x :: xs => toString x ++ "-" ++ toString (xs.getLastD x)

/-- `create_batches` of distributed_renderers.py. -/
def create_batches (frames : List Nat) (batch_size : Nat) : List String :=
  (chunkList batch_size frames).map renderRun

/-- The whole batching pipeline a submission runs:
`parse_frame_range` followed by `create_batches`. -/
def batch_pipeline (s : String) (batch_size : Nat) : Option (List String) :=
  (parse_frame_range s).map (fun f => create_batches f batch_size)

/-- Zero-padding of Python `f"{i:03d}"` for the sub-job id suffix. -/
def pad3 (n : Nat) : String :=
  if n < 10 then "00" ++ toString n
  else if n < 100 then "0" ++ toString n
  else toString n

/-! ## Data model (job_queue_manager.py tables) -/

/-- Status strings stored in the `jobs` and `sub_jobs` tables. -/
inductive Status where
  | pending
  | running
  | paused
  | cancelled
  | completed
  | failed
deriving DecidableEq

/-- A row of the `jobs` table (timestamp columns besides the abstract
`created_at` ordering key are not modelled). -/
structure JobRow where
  id : String
  status : Status
  progress : Rat
  priority : String
  created_at : Nat
deriving DecidableEq

/-- A row of the `sub_jobs` table. -/
structure SubJobRow where
  id : String
  parent_job_id : String
  batch_number : Nat
  frame_range : String
  status : Status
  worker_id : Option String
  error_message : Option String
deriving DecidableEq

/-- `create_sub_jobs` of distributed_renderers.py: one pending row per
batch, ids `f"{job_id}_batch_{i+1:03d}"`, batch numbers dense from 1. -/
def create_sub_jobs (job_id : String) (batches : List String) : List SubJobRow :=
  batches.enum.map (fun p =>
    { id := job_id ++ "_batch_" ++ pad3 (p.1 + 1)
      parent_job_id := job_id
      batch_number := p.1 + 1
      frame_range := p.2
      status := Status.pending
      worker_id := none
      error_message := none })

/-- An entry of the manager's `job_cache` (`OrderedDict`, insertion
order; the value dict carries its own status and worker fields). -/
structure CacheEntry where
  sub_job_id : String
  parent_job_id : String
  frame_range : String
  status : Status
  worker_id : Option String
  error_message : Option String
deriving DecidableEq

/-- The dictionary `get_next_job` returns to a worker (the opaque
`job_data` payload is not modelled). -/
structure Descriptor where
  sub_job_id : String
  parent_job_id : String
  frame_range : String
deriving DecidableEq

/-- The shared state of `JobQueueManager`: the two SQLite tables the
claims touch, plus the in-memory job cache. -/
structure QMState where
  jobs : List JobRow
  sub_jobs : List SubJobRow
  job_cache : List CacheEntry
  cache_enabled : Bool
deriving DecidableEq

/-! ## Queue-manager operations -/

/-- The `CASE j.priority ... END` ranking of `get_next_job`'s query. -/
def priorityRank (p : String) : Nat :=
  if p = "critical" then 1
  else if p = "high" then 2
  else if p = "normal" then 3
  else if p = "low" then 4
  else 5

/-- The `ORDER BY` key comparison of the query: priority rank, then
parent `created_at` ascending.  Note the query names no further
tie-break. -/
def rowLE (a b : SubJobRow × JobRow) : Bool :=
  decide (priorityRank a.2.priority < priorityRank b.2.priority ∨
    (priorityRank a.2.priority = priorityRank b.2.priority ∧
      a.2.created_at ≤ b.2.created_at))

/-- The joined rows `sub_jobs JOIN jobs ON parent_job_id = jobs.id WHERE
sub_jobs.status = 'pending'`, in sub_jobs rowid order. -/
def pendingRows (st : QMState) : List (SubJobRow × JobRow) :=
  st.sub_jobs.filterMap (fun sj =>
    if sj.status = Status.pending then
      (st.jobs.find? (fun j => decide (j.id = sj.parent_job_id))).map (fun j => (sj, j))
    else none)

/-- The query result: ordered by `rowLE` (stable, ties keep rowid order)
with `LIMIT 5`. -/
def queryResults (st : QMState) : List (SubJobRow × JobRow) :=
  (sortByLE rowLE (pendingRows st)).take 5

/-- `_get_job_from_cache`: scan the ordered dict for the first entry with
cached status `pending`; move it to the end and mark it running with this
worker — in the cache only. -/
def get_job_from_cache (wid : String) : List CacheEntry → Option (CacheEntry × List CacheEntry)
  | [] => none
  | e :: rest =>
    if e.status = Status.pending then
      let e' := { e with status := Status.running, worker_id := some wid }
      some (e', rest ++ [e'])
    else
      match get_job_from_cache wid rest with
      | some (r, rest') => some (r, e :: rest')
      | none => none

/-- One `self.job_cache[sub_job_id] = cached_job` store, preceded by the
size-limit eviction of the oldest entry (`cache_max_size = 1000`);
assigning an existing key keeps its position in the ordered dict. -/
def cacheInsert (cache : List CacheEntry) (e : CacheEntry) : List CacheEntry :=
  let cache := if 1000 ≤ cache.length then cache.drop 1 else cache
  if cache.any (fun o => o.sub_job_id == e.sub_job_id) then
    cache.map (fun o => if o.sub_job_id = e.sub_job_id then e else o)
  else cache ++ [e]

/-- `_cache_pending_jobs`: cache up to 10 of the surplus query rows, each
with cached status `pending`. -/
def cachePending (cache : List CacheEntry) (rows : List (SubJobRow × JobRow)) : List CacheEntry :=
  (rows.take 10).foldl (fun c r =>
    cacheInsert c
      { sub_job_id := r.1.id
        parent_job_id := r.1.parent_job_id
        frame_range := r.1.frame_range
        status := Status.pending
        worker_id := none
        error_message := none }) cache

/-- `get_next_job`: try the memory cache first; on a miss run the query,
hand out the first row, cache the rest as pending, mark the handed row
running in the store and the parent job running if it was pending. -/
def get_next_job (st : QMState) (wid : String) : Option Descriptor × QMState :=
  let dbPath : Option Descriptor × QMState :=
    match queryResults st with
    | [] => (none, st)
    | (sj, j) :: rest =>
      let cache' :=
        if st.cache_enabled ∧ rest.length > 0 then cachePending st.job_cache rest
        else st.job_cache
      let subs' := st.sub_jobs.map (fun r =>
        if r.id = sj.id then { r with status := Status.running, worker_id := some wid } else r)
      let jobs' := st.jobs.map (fun r =>
        if r.id = j.id ∧ r.status = Status.pending then { r with status := Status.running } else r)
      (some ⟨sj.id, sj.parent_job_id, sj.frame_range⟩,
        { st with sub_jobs := subs', jobs := jobs', job_cache := cache' })
  if st.cache_enabled then
    match get_job_from_cache wid st.job_cache with
    | some (e, cache') =>
      (some ⟨e.sub_job_id, e.parent_job_id, e.frame_range⟩, { st with job_cache := cache' })
    | none => dbPath
  else dbPath

/-- The terminal status `'completed' if success else 'failed'`. -/
def completeStatus (success : Bool) : Status :=
  if success then Status.completed else Status.failed

/-- The per-row effect of `complete_sub_job`'s `UPDATE sub_jobs SET
status = ?, error_message = ? WHERE id = ?`. -/
def updSub (sid : String) (ns : Status) (err : Option String) (r : SubJobRow) : SubJobRow :=
  if r.id = sid then { r with status := ns, error_message := err } else r

/-- The per-row effect of `complete_sub_job`'s two `UPDATE jobs`
statements: set the recomputed progress, and the completed status when
every sub-job is completed. -/
def updJobProgress (pid : String) (completed total : Nat) (progress : Rat)
    (j : JobRow) : JobRow :=
  if j.id = pid then
    if completed = total then
      { j with progress := progress, status := Status.completed }
    else { j with progress := progress }
  else j

/-- `complete_sub_job`: update the cache entry if present, overwrite the
sub-job row's status and error unconditionally, then recompute the parent
progress `(completed / total) * 100` and mark the parent completed when
every sub-job is completed. -/
def complete_sub_job (st : QMState) (sid : String) (success : Bool)
    (err : Option String) : QMState :=
  let cache' :=
    if st.cache_enabled then
      st.job_cache.map (fun e =>
        if e.sub_job_id = sid then
          { e with status := completeStatus success, error_message := err }
        else e)
    else st.job_cache
  let subs' := st.sub_jobs.map (updSub sid (completeStatus success) err)
  match subs'.find? (fun r => decide (r.id = sid)) with
  | none => { st with job_cache := cache', sub_jobs := subs' }
  | some r =>
    let pid := r.parent_job_id
    let total := subs'.countP (fun x => decide (x.parent_job_id = pid))
    let completed := subs'.countP (fun x =>
      decide (x.parent_job_id = pid ∧ x.status = Status.completed))
    let progress : Rat :=
      if 0 < total then ((completed : Rat) / (total : Rat)) * 100 else 0
    let jobs' := st.jobs.map (updJobProgress pid completed total progress)
    { st with jobs := jobs', sub_jobs := subs', job_cache := cache' }

/-- `pause_job`: the job row goes to paused unconditionally, its running
sub-jobs go to paused, everything else is untouched. -/
def pause_job (st : QMState) (job_id : String) : QMState :=
  { st with
    jobs := st.jobs.map (fun j => if j.id = job_id then { j with status := Status.paused } else j)
    sub_jobs := st.sub_jobs.map (fun s =>
      if s.parent_job_id = job_id ∧ s.status = Status.running then
        { s with status := Status.paused }
      else s) }

/-- `pause_all_jobs`: running jobs and running sub-jobs go to paused. -/
def pause_all_jobs (st : QMState) : QMState :=
  { st with
    jobs := st.jobs.map (fun j =>
      if j.status = Status.running then { j with status := Status.paused } else j)
    sub_jobs := st.sub_jobs.map (fun s =>
      if s.status = Status.running then { s with status := Status.paused } else s) }

/-- A fold of `complete_sub_job` calls, for sequence properties. -/
def completeMany (st : QMState) (calls : List (String × Bool × Option String)) : QMState :=
  calls.foldl (fun s c => complete_sub_job s c.1 c.2.1 c.2.2) st

/-! ## Observations on the state -/

/-- The stored row of a sub-job id. -/
def findSubJob (st : QMState) (sid : String) : Option SubJobRow :=
  st.sub_jobs.find? (fun r => decide (r.id = sid))

/-- The stored status of a sub-job id. -/
def subJobStatus (st : QMState) (sid : String) : Option Status :=
  (findSubJob st sid).map (·.status)

/-- The stored status of a job id. -/
def jobStatus (st : QMState) (jid : String) : Option Status :=
  (st.jobs.find? (fun j => decide (j.id = jid))).map (·.status)

/-- The stored progress of a job id. -/
def jobProgress (st : QMState) (jid : String) : Option Rat :=
  (st.jobs.find? (fun j => decide (j.id = jid))).map (·.progress)

/-- The statuses of the sub-jobs of a parent, in rowid order. -/
def subJobStatuses (st : QMState) (pid : String) : List Status :=
  (st.sub_jobs.filter (fun r => decide (r.parent_job_id = pid))).map (·.status)

/-- `COUNT(*)` of the parent's sub-jobs. -/
def subJobCount (st : QMState) (pid : String) : Nat :=
  st.sub_jobs.countP (fun x => decide (x.parent_job_id = pid))

/-- `SUM(CASE WHEN status = 'completed' ...)` of the parent's sub-jobs. -/
def completedCount (st : QMState) (pid : String) : Nat :=
  st.sub_jobs.countP (fun x => decide (x.parent_job_id = pid ∧ x.status = Status.completed))

/-! ## Server route (server.py) -/

/-- The JSON body of a `/api/jobs/complete` POST; `none` fields are the
keys the handler's `data[...]` lookups would fail on. -/
structure CompleteRequest where
  sub_job_id : Option String
  worker_id : Option String
  success : Option Bool
  error_message : Option String
deriving DecidableEq

/-- The `/api/jobs/complete` branch of `do_POST`: all three required
fields present means `complete_sub_job` runs and the response is
`200 {'status': 'updated'}`; a missing field is a 400.  There is no
ownership check and no 409 path. -/
def handle_jobs_complete (st : QMState) (req : CompleteRequest) :
    (Nat × String) × QMState :=
  match req.sub_job_id, req.worker_id, req.success with
  | some sid, some _wid, some succ =>
    ((200, "updated"), complete_sub_job st sid succ req.error_message)
  | _, _, _ => ((400, "missing"), st)

/-! ## Worker timeout budgets (worker_node.py) -/

/-- `render_nuke_production`:
`frame_count = int(end_frame) - int(start_frame) + 1 if '-' in frame_range else 1`
then `timeout = frame_count * timeout_per_frame`; `none` models the
ValueError path of the int conversions/unpacking. -/
def nuke_timeout (frame_range : String) (timeout_per_frame : Int) : Option Int :=
  let cs := frame_range.toList
  if cs.contains '-' then
    match splitOnChar '-' cs with
    | [a, b] =>
      match charsToNat a, charsToNat b with
      | some s, some e => some (((e : Int) - (s : Int) + 1) * timeout_per_frame)
      | _, _ => none
    | _ => none
  else some (1 * timeout_per_frame)

/-- `render_silhouette_production`:
`frame_count = len(frame_range.split('-')) if '-' in frame_range else 1` —
the number of '-'-separated parts, not the number of frames. -/
def silhouette_timeout (frame_range : String) (timeout_per_frame : Int) : Int :=
  let cs := frame_range.toList
  (if cs.contains '-' then ((splitOnChar '-' cs).length : Int) else 1) * timeout_per_frame

/-- `render_fusion_production` computes its frame count and timeout
exactly as the nuke variant does. -/
def fusion_timeout (frame_range : String) (timeout_per_frame : Int) : Option Int :=
  nuke_timeout frame_range timeout_per_frame

/-- Default `timeout_per_frame` of the worker configuration (seconds). -/
def default_timeout_per_frame : Int := 1800

/-- Default `renderers.nuke.timeout_multiplier` of the configuration;
no render path ever reads these multipliers. -/
def nuke_timeout_multiplier : Rat := 1

/-- Default `renderers.silhouette.timeout_multiplier`. -/
def silhouette_timeout_multiplier : Rat := 3 / 2

/-- Default `renderers.fusion.timeout_multiplier`. -/
def fusion_timeout_multiplier : Rat := 2

/-- Validity of a sequence of completion calls: each call targets a
sub-job that is `running` when the call happens, matching a completion
reported for an assigned batch. -/
def ValidSeq : QMState → List (String × Bool × Option String) → Prop
  | _, [] => True
  | st, c :: cs =>
    (∃ r, findSubJob st c.1 = some r ∧ r.status = Status.running) ∧
      ValidSeq (complete_sub_job st c.1 c.2.1 c.2.2) cs

/-! ## Concrete states for the worked examples -/

/-- A pending sub-job row as `create_sub_jobs` inserts it. -/
def mkPendingSub (sid pid : String) (bn : Nat) (fr : String) : SubJobRow :=
  { id := sid, parent_job_id := pid, batch_number := bn, frame_range := fr,
    status := Status.pending, worker_id := none, error_message := none }

/-- A sub-job row already claimed by a worker. -/
def mkRunningSub (sid pid : String) (bn : Nat) (fr : String) (wid : String) : SubJobRow :=
  { id := sid, parent_job_id := pid, batch_number := bn, frame_range := fr,
    status := Status.running, worker_id := some wid, error_message := none }

/-- A freshly submitted job row. -/
def mkPendingJob (jid pr : String) (t : Nat) : JobRow :=
  { id := jid, status := Status.pending, progress := 0, priority := pr, created_at := t }

/-- A job row whose first batch has been claimed. -/
def mkRunningJob (jid pr : String) (t : Nat) : JobRow :=
  { id := jid, status := Status.running, progress := 0, priority := pr, created_at := t }

/-- One normal job with two pending batches and an empty cache. -/
def twoBatchState : QMState :=
  { jobs := [mkPendingJob "J" "normal" 1]
    sub_jobs := [mkPendingSub "S1" "J" 1 "1-3", mkPendingSub "S2" "J" 2 "4-5"]
    job_cache := [], cache_enabled := true }

/-- The priority-overtake scenario: J1 (normal, 3 batches) submitted
before J2 (critical, 2 batches). -/
def overtakeState : QMState :=
  { jobs := [mkPendingJob "J1" "normal" 1, mkPendingJob "J2" "critical" 2]
    sub_jobs := [mkPendingSub "J1b1" "J1" 1 "1-1", mkPendingSub "J1b2" "J1" 2 "2-2",
                 mkPendingSub "J1b3" "J1" 3 "3-3", mkPendingSub "J2b1" "J2" 1 "1-1",
                 mkPendingSub "J2b2" "J2" 2 "2-2"]
    job_cache := [], cache_enabled := true }

/-- One normal job with two pending batches, before any pull. -/
def staleState0 : QMState :=
  { jobs := [mkPendingJob "J1" "normal" 1]
    sub_jobs := [mkPendingSub "J1b1" "J1" 1 "1-1", mkPendingSub "J1b2" "J1" 2 "2-2"]
    job_cache := [], cache_enabled := true }

/-- After one pull on `staleState0` (which prefetches J1's second batch
into the cache), a critical job J2 is submitted. -/
def staleState2 : QMState :=
  { (get_next_job staleState0 "w1").2 with
    jobs := (get_next_job staleState0 "w1").2.jobs ++ [mkPendingJob "J2" "critical" 2]
    sub_jobs := (get_next_job staleState0 "w1").2.sub_jobs ++ [mkPendingSub "J2b1" "J2" 1 "1-1"] }

/-- A job with a single sub-job currently running on worker w1. -/
def oneRunningState : QMState :=
  { jobs := [mkRunningJob "J" "normal" 1]
    sub_jobs := [mkRunningSub "S1" "J" 1 "1-2" "w1"]
    job_cache := [], cache_enabled := true }

/-- A job whose single sub-job has already completed, with the stored
progress the completion computed. -/
def doneState : QMState :=
  { jobs := [{ id := "J", status := Status.completed,
               progress := ((1 : Nat) : Rat) / ((1 : Nat) : Rat) * 100,
               priority := "normal", created_at := 1 }]
    sub_jobs := [{ id := "S1", parent_job_id := "J", batch_number := 1, frame_range := "1-2",
                   status := Status.completed, worker_id := some "w1", error_message := none }]
    job_cache := [], cache_enabled := true }

/-- A job with one running and one pending batch, about to be paused. -/
def pausedScenarioState : QMState :=
  { jobs := [mkRunningJob "J" "normal" 1]
    sub_jobs := [mkRunningSub "S1" "J" 1 "1-3" "w1", mkPendingSub "S2" "J" 2 "4-5"]
    job_cache := [], cache_enabled := true }

/-- Repeated pulls by one worker: the state after n sequential
`get_next_job` calls. -/
def pullSeq (st : QMState) (wid : String) : Nat → Option Descriptor × QMState
  | 0 => (none, st)
  | n + 1 => get_next_job (pullSeq st wid n).2 wid

/-- The descriptors the first n sequential pulls return, in order. -/
def pullResults (st : QMState) (wid : String) : Nat → List (Option Descriptor)
  | 0 => []
  | n + 1 => pullResults st wid n ++ [(pullSeq st wid (n + 1)).1]

/-! ## Helper lemmas: stable insertion sort -/

theorem insertByLE_perm (le : α → α → Bool) (a : α) :
    ∀ l : List α, List.Perm (insertByLE le a l) (a :: l) := by
  intro l
  induction l with
  | nil => exact List.Perm.refl _
  | cons b t ih =>
    by_cases h : le a b = true
    · simp [insertByLE, h]
    · simp only [insertByLE, h]
      simp only [Bool.false_eq_true, if_false]
      exact (ih.cons b).trans (List.Perm.swap a b t)

theorem sortByLE_perm (le : α → α → Bool) : ∀ l : List α, List.Perm (sortByLE le l) l := by
  intro l
  induction l with
  | nil => exact List.Perm.refl _
  | cons x xs ih =>
    exact (insertByLE_perm le x (sortByLE le xs)).trans (ih.cons x)

theorem insertByLE_pairwise (le : α → α → Bool)
    (htrans : ∀ x y z, le x y = true → le y z = true → le x z = true)
    (htot : ∀ x y, le x y = true ∨ le y x = true) (a : α) :
    ∀ l : List α, l.Pairwise (fun x y => le x y = true) →
      (insertByLE le a l).Pairwise (fun x y => le x y = true) := by
  intro l
  induction l with
  | nil => intro _; simp [insertByLE]
  | cons b t ih =>
    intro h
    rcases List.pairwise_cons.mp h with ⟨hb, ht⟩
    by_cases hab : le a b = true
    · simp only [insertByLE, hab, if_true]
      refine List.pairwise_cons.mpr ⟨?_, h⟩
      intro y hy
      rcases List.mem_cons.mp hy with rfl | hyt
      · exact hab
      · exact htrans a b y hab (hb y hyt)
    · simp only [insertByLE, hab]
      simp only [Bool.false_eq_true, if_false]
      refine List.pairwise_cons.mpr ⟨?_, ih ht⟩
      intro y hy
      have hy' : y = a ∨ y ∈ t := by
        have := (insertByLE_perm le a t).mem_iff.mp hy
        simpa using this
      rcases hy' with heq | hyt
      · rcases htot a b with hc | hc
        · exact absurd hc hab
        · exact heq ▸ hc
      · exact hb y hyt

theorem sortByLE_pairwise (le : α → α → Bool)
    (htrans : ∀ x y z, le x y = true → le y z = true → le x z = true)
    (htot : ∀ x y, le x y = true ∨ le y x = true) :
    ∀ l : List α, (sortByLE le l).Pairwise (fun x y => le x y = true) := by
  intro l
  induction l with
  | nil => simp [sortByLE]
  | cons x xs ih => exact insertByLE_pairwise le htrans htot x _ ih

theorem sortByLE_head_min (le : α → α → Bool)
    (htrans : ∀ x y z, le x y = true → le y z = true → le x z = true)
    (htot : ∀ x y, le x y = true ∨ le y x = true)
    (l : List α) (a : α) (t : List α) (h : sortByLE le l = a :: t) :
    ∀ y ∈ l, le a y = true := by
  intro y hy
  have hmem : y ∈ a :: t := h ▸ (sortByLE_perm le l).symm.mem_iff.mp hy
  rcases List.mem_cons.mp hmem with rfl | hyt
  · rcases htot y y with hc | hc <;> exact hc
  · have hp := sortByLE_pairwise le htrans htot l
    rw [h] at hp
    exact (List.pairwise_cons.mp hp).1 y hyt

/-! ## Helper lemmas: slicing -/

theorem chunkListAux_flatten (bs : Nat) (hbs : bs ≠ 0) :
    ∀ (fuel : Nat) (l : List Nat), l.length ≤ fuel →
      (chunkListAux bs fuel l).flatten = l := by
  intro fuel
  induction fuel with
  | zero =>
    intro l hl
    have : l = [] := List.eq_nil_of_length_eq_zero (Nat.le_zero.mp hl)
    subst this
    simp [chunkListAux]
  | succ n ih =>
    intro l hl
    match l with
    | [] => simp [chunkListAux]
    | x :: xs =>
      have hlen : (List.drop bs (x :: xs)).length ≤ n := by
        simp only [List.length_drop, List.length_cons]
        simp only [List.length_cons] at hl
        omega
      simp only [chunkListAux, List.flatten_cons, ih _ hlen]
      exact List.take_append_drop bs (x :: xs)

theorem chunkList_flatten (bs : Nat) (hbs : bs ≠ 0) (l : List Nat) :
    (chunkList bs l).flatten = l := by
  simp only [chunkList, hbs, if_false]
  exact chunkListAux_flatten bs hbs l.length l (Nat.le_refl _)

theorem chunkListAux_mem (bs : Nat) (hbs : bs ≠ 0) :
    ∀ (fuel : Nat) (l : List Nat), l.length ≤ fuel →
      ∀ c ∈ chunkListAux bs fuel l, c ≠ [] ∧ c.length ≤ bs := by
  intro fuel
  induction fuel with
  | zero =>
    intro l hl
    have : l = [] := List.eq_nil_of_length_eq_zero (Nat.le_zero.mp hl)
    subst this
    simp [chunkListAux]
  | succ n ih =>
    intro l hl c hc
    match l with
    | [] => simp [chunkListAux] at hc
    | x :: xs =>
      simp only [chunkListAux, List.mem_cons] at hc
      rcases hc with rfl | hc
      · constructor
        · have : 0 < bs := Nat.pos_of_ne_zero hbs
          match bs with
          | b + 1 => simp [List.take]
        · simp only [List.length_take]
          omega
      · have hlen : (List.drop bs (x :: xs)).length ≤ n := by
          simp only [List.length_drop, List.length_cons]
          simp only [List.length_cons] at hl
          omega
        exact ih _ hlen c hc

theorem chunkList_mem (bs : Nat) (hbs : bs ≠ 0) (l : List Nat) :
    ∀ c ∈ chunkList bs l, c ≠ [] ∧ c.length ≤ bs := by
  simp only [chunkList, hbs, if_false]
  exact chunkListAux_mem bs hbs l.length l (Nat.le_refl _)

/-! ## Helper lemmas: the parsed frame list is sorted without duplicates -/

theorem sortedDedup_sorted (l : List Nat) :
    (sortedDedup l).Pairwise (· < ·) := by
  have hle : (sortedDedup l).Pairwise (fun a b : Nat => decide (a ≤ b) = true) :=
    sortByLE_pairwise _ (fun x y z hxy hyz => by
        simp only [decide_eq_true_eq] at *; omega)
      (fun x y => by
        by_cases h : x ≤ y
        · left; simpa using h
        · right; simp only [decide_eq_true_eq]; omega)
      l.dedup
  have hnd : (sortedDedup l).Nodup :=
    (sortByLE_perm _ l.dedup).symm.nodup (List.nodup_dedup l)
  have := hle.and hnd
  refine this.imp ?_
  intro a b hab
  rcases hab with ⟨h1, h2⟩
  simp only [decide_eq_true_eq] at h1
  exact lt_of_le_of_ne h1 h2

theorem parse_frame_range_sorted (s : String) (frames : List Nat)
    (hp : parse_frame_range s = some frames) :
    frames.Pairwise (· < ·) := by
  simp only [parse_frame_range, Option.map_eq_some'] at hp
  rcases hp with ⟨raw, _, rfl⟩
  exact sortedDedup_sorted raw

/-! ## Helper lemmas: dense batch numbers -/

theorem enumFrom_map_succ_fst :
    ∀ (l : List String) (k : Nat),
      ((l.enumFrom k).map (fun p => p.1 + 1)) = List.range' (k + 1) l.length := by
  intro l
  induction l with
  | nil => intro k; simp [List.enumFrom]
  | cons x xs ih =>
    intro k
    simp only [List.enumFrom, List.map_cons, List.length_cons, List.range'_succ]
    exact congrArg _ (ih (k + 1))

theorem create_sub_jobs_batch_numbers (jid : String) (batches : List String) :
    (create_sub_jobs jid batches).map (·.batch_number) = List.range' 1 batches.length := by
  have h1 : (create_sub_jobs jid batches).map (·.batch_number) =
      (batches.enum.map (fun p => p.1 + 1)) := by
    simp only [create_sub_jobs, List.map_map]
    rfl
  rw [h1]
  have := enumFrom_map_succ_fst batches 0
  simpa [List.enum] using this

/-! ## Helper lemmas: updates preserve keys -/

theorem updSub_id (sid : String) (ns : Status) (err : Option String) (r : SubJobRow) :
    (updSub sid ns err r).id = r.id := by
  by_cases h : r.id = sid <;> simp [updSub, h]

theorem updSub_parent (sid : String) (ns : Status) (err : Option String) (r : SubJobRow) :
    (updSub sid ns err r).parent_job_id = r.parent_job_id := by
  by_cases h : r.id = sid <;> simp [updSub, h]

theorem updJobProgress_id (pid : String) (c t : Nat) (p : Rat) (j : JobRow) :
    (updJobProgress pid c t p j).id = j.id := by
  by_cases h : j.id = pid
  · by_cases hc : c = t <;> simp [updJobProgress, h, hc]
  · simp [updJobProgress, h]

theorem find?_map_comm {α β : Type} (f : α → β) (p : β → Bool) (q : α → Bool)
    (h : ∀ a, p (f a) = q a) (l : List α) :
    (l.map f).find? p = (l.find? q).map f := by
  have hpq : (p ∘ f) = q := funext h
  rw [List.find?_map, hpq]

theorem countP_map_congr {α : Type} (f : α → α) (p q : α → Bool)
    (h : ∀ a, p (f a) = q a) (l : List α) :
    (l.map f).countP p = l.countP q := by
  have hpq : (p ∘ f) = q := funext h
  rw [List.countP_map, hpq]

theorem find?_id_map (f : SubJobRow → SubJobRow) (hf : ∀ r, (f r).id = r.id)
    (l : List SubJobRow) (sid : String) :
    (l.map f).find? (fun r => decide (r.id = sid)) =
      (l.find? (fun r => decide (r.id = sid))).map f :=
  find?_map_comm f _ _ (fun a => by rw [hf]) l

theorem find?_id_map_job (f : JobRow → JobRow) (hf : ∀ j, (f j).id = j.id)
    (l : List JobRow) (jid : String) :
    (l.map f).find? (fun j => decide (j.id = jid)) =
      (l.find? (fun j => decide (j.id = jid))).map f :=
  find?_map_comm f _ _ (fun a => by rw [hf]) l

/-! ## Helper lemmas: counting after a single-row update -/

theorem countP_map_updSub (sid : String) (ns : Status) (err : Option String)
    (q : SubJobRow → Bool) :
    ∀ (l : List SubJobRow), (l.map (·.id)).Nodup →
      ∀ r0, l.find? (fun r => decide (r.id = sid)) = some r0 →
        (l.map (updSub sid ns err)).countP q + (if q r0 then 1 else 0)
          = l.countP q + (if q (updSub sid ns err r0) then 1 else 0) := by
  intro l
  induction l with
  | nil => intro _ r0 h; simp [List.find?] at h
  | cons a t ih =>
    intro hnd r0 hfind
    by_cases ha : a.id = sid
    · have hfa : List.find? (fun r => decide (r.id = sid)) (a :: t) = some a :=
        List.find?_cons_of_pos (p := fun r => decide (r.id = sid)) t (by simp [ha])
      rw [hfa] at hfind
      injection hfind with h1
      subst h1
      have hnin : a.id ∉ t.map (·.id) := by
        have h2 := hnd
        simp only [List.map_cons, List.nodup_cons] at h2
        exact h2.1
      have hmap : t.map (updSub sid ns err) = t := by
        have h1 : t.map (updSub sid ns err) = t.map id :=
          List.map_congr_left (fun r hr => by
            have hne : r.id ≠ sid := fun hrid =>
              hnin (by rw [ha, ← hrid]; exact List.mem_map_of_mem _ hr)
            simp [updSub, hne])
        rw [h1, List.map_id]
      simp only [List.map_cons, hmap, List.countP_cons]
      omega
    · have hfa : List.find? (fun r => decide (r.id = sid)) (a :: t) =
          List.find? (fun r => decide (r.id = sid)) t :=
        List.find?_cons_of_neg (p := fun r => decide (r.id = sid)) t (by simp [ha])
      rw [hfa] at hfind
      have hnd' : (t.map (·.id)).Nodup := by
        simp only [List.map_cons, List.nodup_cons] at hnd
        exact hnd.2
      have hupda : updSub sid ns err a = a := by simp [updSub, ha]
      have hih := ih hnd' r0 hfind
      simp only [List.map_cons, hupda, List.countP_cons]
      omega

/-! ## Helper lemmas: the shape of `complete_sub_job` -/

theorem complete_sub_job_sub_jobs (st : QMState) (sid : String) (succ : Bool)
    (err : Option String) :
    (complete_sub_job st sid succ err).sub_jobs =
      st.sub_jobs.map (updSub sid (completeStatus succ) err) := by
  simp only [complete_sub_job]
  split <;> rfl

theorem find?_subs_after (st : QMState) (sid : String) (succ : Bool)
    (err : Option String) (r0 : SubJobRow) (hfind : findSubJob st sid = some r0) :
    (st.sub_jobs.map (updSub sid (completeStatus succ) err)).find?
        (fun r => decide (r.id = sid)) = some (updSub sid (completeStatus succ) err r0) := by
  rw [find?_id_map _ (updSub_id sid _ err)]
  simp only [findSubJob] at hfind
  rw [hfind, Option.map_some']

theorem complete_sub_job_jobs (st : QMState) (sid : String) (succ : Bool)
    (err : Option String) (r0 : SubJobRow) (hfind : findSubJob st sid = some r0) :
    (complete_sub_job st sid succ err).jobs =
      st.jobs.map (updJobProgress r0.parent_job_id
        (completedCount (complete_sub_job st sid succ err) r0.parent_job_id)
        (subJobCount (complete_sub_job st sid succ err) r0.parent_job_id)
        (if 0 < subJobCount (complete_sub_job st sid succ err) r0.parent_job_id then
          ((completedCount (complete_sub_job st sid succ err) r0.parent_job_id : Rat) /
            (subJobCount (complete_sub_job st sid succ err) r0.parent_job_id : Rat)) * 100
         else 0)) := by
  have hsubs := complete_sub_job_sub_jobs st sid succ err
  have hfind' := find?_subs_after st sid succ err r0 hfind
  simp only [completedCount, subJobCount, hsubs]
  simp only [complete_sub_job, hfind']
  simp only [updSub_parent]

/-! ## Helper lemmas: observations after `complete_sub_job` -/

theorem findSubJob_id (st : QMState) (sid : String) (r0 : SubJobRow)
    (hfind : findSubJob st sid = some r0) : r0.id = sid := by
  have := List.find?_some hfind
  exact of_decide_eq_true this

theorem subJobCount_complete (st : QMState) (sid : String) (succ : Bool)
    (err : Option String) (pid : String) :
    subJobCount (complete_sub_job st sid succ err) pid = subJobCount st pid := by
  simp only [subJobCount, complete_sub_job_sub_jobs]
  exact countP_map_congr _ _ _ (fun r => by rw [updSub_parent]) st.sub_jobs

theorem completedCount_complete_eq (st : QMState) (sid : String) (succ : Bool)
    (err : Option String) (r0 : SubJobRow)
    (hnd : (st.sub_jobs.map (·.id)).Nodup) (hfind : findSubJob st sid = some r0)
    (pid : String) :
    completedCount (complete_sub_job st sid succ err) pid
        + (if r0.parent_job_id = pid ∧ r0.status = Status.completed then 1 else 0)
      = completedCount st pid
        + (if r0.parent_job_id = pid ∧ completeStatus succ = Status.completed then 1 else 0) := by
  have h := countP_map_updSub sid (completeStatus succ) err
    (fun x => decide (x.parent_job_id = pid ∧ x.status = Status.completed))
    st.sub_jobs hnd r0 hfind
  have hid : r0.id = sid := findSubJob_id st sid r0 hfind
  have hupd : updSub sid (completeStatus succ) err r0 =
      { r0 with status := completeStatus succ, error_message := err } := by
    simp [updSub, hid]
  rw [hupd] at h
  simp only [completedCount, complete_sub_job_sub_jobs]
  simpa using h

theorem subJobStatus_complete (st : QMState) (sid : String) (succ : Bool)
    (err : Option String) (r0 : SubJobRow) (hfind : findSubJob st sid = some r0) :
    subJobStatus (complete_sub_job st sid succ err) sid = some (completeStatus succ) := by
  have hid : r0.id = sid := findSubJob_id st sid r0 hfind
  simp only [subJobStatus, findSubJob, complete_sub_job_sub_jobs]
  rw [find?_id_map _ (updSub_id sid _ err)]
  simp only [findSubJob] at hfind
  rw [hfind]
  simp [updSub, hid]

theorem jobProgress_complete (st : QMState) (sid : String) (succ : Bool)
    (err : Option String) (r0 : SubJobRow) (hfind : findSubJob st sid = some r0) :
    jobProgress (complete_sub_job st sid succ err) r0.parent_job_id =
      (st.jobs.find? (fun j => decide (j.id = r0.parent_job_id))).map (fun _ =>
        if 0 < subJobCount (complete_sub_job st sid succ err) r0.parent_job_id then
          ((completedCount (complete_sub_job st sid succ err) r0.parent_job_id : Rat) /
            (subJobCount (complete_sub_job st sid succ err) r0.parent_job_id : Rat)) * 100
        else 0) := by
  simp only [jobProgress, complete_sub_job_jobs st sid succ err r0 hfind]
  rw [find?_id_map_job _ (updJobProgress_id _ _ _ _)]
  rcases hj : st.jobs.find? (fun j => decide (j.id = r0.parent_job_id)) with _ | j0
  · rw [hj]
    rfl
  · rw [hj]
    have hid : j0.id = r0.parent_job_id := by simpa using List.find?_some hj
    by_cases hct : completedCount (complete_sub_job st sid succ err) r0.parent_job_id =
        subJobCount (complete_sub_job st sid succ err) r0.parent_job_id <;>
      simp [updJobProgress, hid, hct]

theorem jobStatus_complete (st : QMState) (sid : String) (succ : Bool)
    (err : Option String) (r0 : SubJobRow) (j0 : JobRow)
    (hfind : findSubJob st sid = some r0)
    (hjob : st.jobs.find? (fun j => decide (j.id = r0.parent_job_id)) = some j0) :
    jobStatus (complete_sub_job st sid succ err) r0.parent_job_id =
      some (if completedCount (complete_sub_job st sid succ err) r0.parent_job_id =
          subJobCount (complete_sub_job st sid succ err) r0.parent_job_id then
        Status.completed else j0.status) := by
  simp only [jobStatus, complete_sub_job_jobs st sid succ err r0 hfind]
  rw [find?_id_map_job _ (updJobProgress_id _ _ _ _), hjob]
  have hid : j0.id = r0.parent_job_id := by simpa using List.find?_some hjob
  by_cases hct : completedCount (complete_sub_job st sid succ err) r0.parent_job_id =
      subJobCount (complete_sub_job st sid succ err) r0.parent_job_id <;>
    simp [updJobProgress, hid, hct]

theorem completed_eq_total_iff (st : QMState) (pid : String) :
    (completedCount st pid = subJobCount st pid ↔
      ∀ s ∈ subJobStatuses st pid, s = Status.completed) := by
  have h1 : completedCount st pid =
      List.countP (fun r => decide (r.status = Status.completed))
        (st.sub_jobs.filter (fun r => decide (r.parent_job_id = pid))) := by
    rw [List.countP_filter]
    simp only [completedCount]
    congr 1
    funext r
    by_cases h1 : r.parent_job_id = pid <;> by_cases h2 : r.status = Status.completed <;>
      simp [h1, h2]
  have h2 : subJobCount st pid =
      (st.sub_jobs.filter (fun r => decide (r.parent_job_id = pid))).length := by
    simp only [subJobCount]
    exact List.countP_eq_length_filter _ st.sub_jobs
  rw [h1, h2, List.countP_eq_length]
  simp only [subJobStatuses, List.mem_map]
  constructor
  · rintro h s ⟨r, hr, rfl⟩
    exact of_decide_eq_true (h r hr)
  · intro h r hr
    exact decide_eq_true (h r.status ⟨r, hr, rfl⟩)

theorem completedCount_le (st : QMState) (pid : String) :
    completedCount st pid ≤ subJobCount st pid :=
  List.countP_mono_left (fun x _ h => by
    simp only [decide_eq_true_eq] at h ⊢
    exact h.1)

theorem subJobCount_pos (st : QMState) (sid : String) (r0 : SubJobRow)
    (hfind : findSubJob st sid = some r0) : 0 < subJobCount st r0.parent_job_id := by
  simp only [subJobCount]
  rw [List.countP_pos_iff]
  exact ⟨r0, List.mem_of_find?_eq_some hfind, by simp⟩

theorem complete_sub_job_ids (st : QMState) (sid : String) (succ : Bool)
    (err : Option String) :
    ((complete_sub_job st sid succ err).sub_jobs).map (·.id) = st.sub_jobs.map (·.id) := by
  rw [complete_sub_job_sub_jobs, List.map_map]
  exact List.map_congr_left (fun r _ => updSub_id sid _ err r)

/-! ## Helper lemmas: pause operations -/

theorem pause_job_findSubJob (st : QMState) (jid sid : String) (r : SubJobRow)
    (hfind : findSubJob st sid = some r) :
    findSubJob (pause_job st jid) sid =
      some (if r.parent_job_id = jid ∧ r.status = Status.running then
        { r with status := Status.paused } else r) := by
  simp only [findSubJob, pause_job]
  rw [find?_id_map _ (fun s => by
    by_cases h : s.parent_job_id = jid ∧ s.status = Status.running <;> simp [h])]
  simp only [findSubJob] at hfind
  rw [hfind, Option.map_some']

theorem pause_all_findSubJob (st : QMState) (sid : String) (r : SubJobRow)
    (hfind : findSubJob st sid = some r) :
    findSubJob (pause_all_jobs st) sid =
      some (if r.status = Status.running then { r with status := Status.paused } else r) := by
  simp only [findSubJob, pause_all_jobs]
  rw [find?_id_map _ (fun s => by
    by_cases h : s.status = Status.running <;> simp [h])]
  simp only [findSubJob] at hfind
  rw [hfind, Option.map_some']

/-! ## Helper lemmas: valid completion sequences -/

theorem completedCount_complete_le (st : QMState) (sid : String) (succ : Bool)
    (err : Option String) (pid : String) (r0 : SubJobRow)
    (hnd : (st.sub_jobs.map (·.id)).Nodup) (hfind : findSubJob st sid = some r0)
    (hnc : r0.status ≠ Status.completed) :
    completedCount st pid ≤ completedCount (complete_sub_job st sid succ err) pid := by
  have h := completedCount_complete_eq st sid succ err r0 hnd hfind pid
  have hz : (if r0.parent_job_id = pid ∧ r0.status = Status.completed then 1 else 0) = 0 :=
    if_neg (fun hc => hnc hc.2)
  omega

theorem validSeq_completedCount_le (pid : String) :
    ∀ (calls : List (String × Bool × Option String)) (st : QMState),
      (st.sub_jobs.map (·.id)).Nodup → ValidSeq st calls →
      completedCount st pid ≤ completedCount (completeMany st calls) pid := by
  intro calls
  induction calls with
  | nil => intro st _ _; simp [completeMany]
  | cons c cs ih =>
    intro st hnd hv
    rcases hv with ⟨⟨r, hfind, hrun⟩, hv'⟩
    have h1 : completedCount st pid ≤
        completedCount (complete_sub_job st c.1 c.2.1 c.2.2) pid :=
      completedCount_complete_le st c.1 c.2.1 c.2.2 pid r hnd hfind
        (by rw [hrun]; intro h; exact Status.noConfusion h)
    have hnd' : ((complete_sub_job st c.1 c.2.1 c.2.2).sub_jobs.map (·.id)).Nodup := by
      rw [complete_sub_job_ids]; exact hnd
    have h2 := ih (complete_sub_job st c.1 c.2.1 c.2.2) hnd' hv'
    have hfold : completeMany st (c :: cs) =
        completeMany (complete_sub_job st c.1 c.2.1 c.2.2) cs := rfl
    rw [hfold]
    exact le_trans h1 h2

/-! ## Helper lemmas: the ordering key of the queue query -/

theorem rowLE_trans (a b c : SubJobRow × JobRow)
    (hab : rowLE a b = true) (hbc : rowLE b c = true) : rowLE a c = true := by
  simp only [rowLE, decide_eq_true_eq] at hab hbc ⊢
  omega

theorem rowLE_total (a b : SubJobRow × JobRow) :
    rowLE a b = true ∨ rowLE b a = true := by
  simp only [rowLE, decide_eq_true_eq]
  omega

theorem get_next_job_db_min (st : QMState) (wid : String) (d : Descriptor)
    (hc : st.cache_enabled = false ∨ get_job_from_cache wid st.job_cache = none)
    (hres : (get_next_job st wid).1 = some d) :
    ∃ sj j, (sj, j) ∈ pendingRows st ∧
      d = ⟨sj.id, sj.parent_job_id, sj.frame_range⟩ ∧
      ∀ x ∈ pendingRows st,
        priorityRank j.priority < priorityRank x.2.priority ∨
        (priorityRank j.priority = priorityRank x.2.priority ∧
          j.created_at ≤ x.2.created_at) := by
  have hres' : (match queryResults st with
      | [] => none
      | (sj, j) :: _ => some (⟨sj.id, sj.parent_job_id, sj.frame_range⟩ : Descriptor)) =
        some d := by
    rw [← hres]
    rcases hc with hcd | hcn
    · simp only [get_next_job, hcd, Bool.false_eq_true, if_false]
      cases hq : queryResults st with
      | nil => rfl
      | cons hd rest =>
        obtain ⟨sj, j⟩ := hd
        rfl
    · cases hce : st.cache_enabled
      · simp only [get_next_job, hce, Bool.false_eq_true, if_false]
        cases hq : queryResults st with
        | nil => rfl
        | cons hd rest =>
          obtain ⟨sj, j⟩ := hd
          rfl
      · simp only [get_next_job, hce, hcn, if_true]
        cases hq : queryResults st with
        | nil => rfl
        | cons hd rest =>
          obtain ⟨sj, j⟩ := hd
          rfl
  rcases hq : queryResults st with _ | ⟨⟨sj, j⟩, rest⟩
  · rw [hq] at hres'
    exact absurd hres' (by simp)
  · rw [hq] at hres'
    simp only [Option.some.injEq] at hres'
    subst hres'
    rcases hs : sortByLE rowLE (pendingRows st) with _ | ⟨y, t⟩
    · rw [queryResults, hs] at hq
      exact absurd hq (by simp)
    · rw [queryResults, hs] at hq
      rw [List.take_succ_cons] at hq
      have hy : y = (sj, j) := (List.cons.injEq _ _ _ _ ▸ hq).1
      subst hy
      refine ⟨sj, j, ?_, rfl, ?_⟩
      · exact (sortByLE_perm rowLE (pendingRows st)).mem_iff.mp (hs ▸ List.mem_cons_self _ _)
      · intro x hx
        have := sortByLE_head_min rowLE rowLE_trans rowLE_total (pendingRows st) (sj, j) t hs x hx
        simpa only [rowLE, decide_eq_true_eq] using this

/-! ## Claims -/

/-- Claim C1, counterexample: on input "1-5,8,10-12" with batch_size 3 the
pipeline produces the three batches 1-3, 4-8, 10-12 — not the four
contiguous runs 1-3, 4-5, 8, 10-12 the claim states; the slice [4, 5, 8]
spans the gap left after deduplication. -/
theorem C1_counterexample :
    batch_pipeline "1-5,8,10-12" 3 = some ["1-3", "4-8", "10-12"] ∧
    (["1-3", "4-8", "10-12"] : List String) ≠ ["1-3", "4-5", "8", "10-12"] := by
  constructor
  · decide
  · decide

/-- Claim C1, amended: for a legal frame-range string and batch_size ≥ 1,
`create_batches` slices the sorted deduplicated frame list into
consecutive chunks of at most batch_size frames whose concatenation is
exactly that list (so chunks may span gaps), each chunk nonempty and
rendered first-last, with batch numbers dense from 1; the parse itself is
sorted and duplicate-free. -/
theorem C1_amended_batches (s : String) (B : Nat) (frames : List Nat)
    (hp : parse_frame_range s = some frames) (hB : 1 ≤ B) :
    (chunkList B frames).flatten = frames ∧
    (∀ c ∈ chunkList B frames, c ≠ [] ∧ c.length ≤ B) ∧
    create_batches frames B = (chunkList B frames).map renderRun ∧
    (∀ jid, (create_sub_jobs jid (create_batches frames B)).map (·.batch_number) =
      List.range' 1 (create_batches frames B).length) ∧
    frames.Pairwise (· < ·) := by
  have hbs : B ≠ 0 := by omega
  exact ⟨chunkList_flatten B hbs frames, chunkList_mem B hbs frames, rfl,
    fun jid => create_sub_jobs_batch_numbers jid _, parse_frame_range_sorted s frames hp⟩

/-- Claim C1, witness: the amended statement at the worked example
"1-5,8,10-12" with batch_size 3. -/
theorem C1_witness :
    (chunkList 3 [1, 2, 3, 4, 5, 8, 10, 11, 12]).flatten = [1, 2, 3, 4, 5, 8, 10, 11, 12] ∧
    (∀ c ∈ chunkList 3 [1, 2, 3, 4, 5, 8, 10, 11, 12], c ≠ [] ∧ c.length ≤ 3) ∧
    create_batches [1, 2, 3, 4, 5, 8, 10, 11, 12] 3 =
      (chunkList 3 [1, 2, 3, 4, 5, 8, 10, 11, 12]).map renderRun ∧
    (∀ jid,
      (create_sub_jobs jid (create_batches [1, 2, 3, 4, 5, 8, 10, 11, 12] 3)).map
        (·.batch_number) =
      List.range' 1 (create_batches [1, 2, 3, 4, 5, 8, 10, 11, 12] 3).length) ∧
    ([1, 2, 3, 4, 5, 8, 10, 11, 12] : List Nat).Pairwise (· < ·) :=
  C1_amended_batches "1-5,8,10-12" 3 [1, 2, 3, 4, 5, 8, 10, 11, 12] (by decide) (by decide)

/-- Claim C9: batching is deterministic — two runs of the pipeline on the
same (frame_range, batch_size) input give identical batch sequences. -/
theorem C9_deterministic_batching (s : String) (B : Nat) (r1 r2 : Option (List String))
    (h1 : batch_pipeline s B = r1) (h2 : batch_pipeline s B = r2) : r1 = r2 := by
  rw [← h1, ← h2]

/-- Claim C9, witness: both runs on ("1-5,8,10-12", 3) give the same
concrete batch list. -/
theorem C9_witness :
    (some ["1-3", "4-8", "10-12"] : Option (List String)) = some ["1-3", "4-8", "10-12"] :=
  C9_deterministic_batching "1-5,8,10-12" 3 (some ["1-3", "4-8", "10-12"])
    (some ["1-3", "4-8", "10-12"]) (by decide) (by decide)

/-- Claim C8, code-bug evaluation: for the batch "10-12" (3 frames) with
the default timeout_per_frame of 1800 s, the silhouette render computes a
budget of 2 * 1800 = 3600 s (it counts the parts of the '-'-split, not
the frames) and the fusion render computes 3 * 1800 = 5400 s; neither
applies its configured timeout multiplier (1.5 and 2.0), so the budgets
differ from the claimed frame_count * timeout_per_frame * multiplier
(8100 s and 10800 s). -/
theorem C8_timeout_bug :
    silhouette_timeout "10-12" default_timeout_per_frame = 3600 ∧
    nuke_timeout "10-12" default_timeout_per_frame = some 5400 ∧
    fusion_timeout "10-12" default_timeout_per_frame = some 5400 ∧
    (3600 : Rat) ≠ (3 : Rat) * 1800 * silhouette_timeout_multiplier ∧
    (5400 : Rat) ≠ (3 : Rat) * 1800 * fusion_timeout_multiplier := by
  refine ⟨by decide, by decide, by decide, ?_, ?_⟩
  · simp only [silhouette_timeout_multiplier]
    norm_num
  · simp only [fusion_timeout_multiplier]
    norm_num

/-- Claim C2, code-bug evaluation: against two pending sub-jobs, the
first pull takes S1 from the store and prefetches S2 into the cache; the
second pull is served S2 from the cache but the stored S2 row stays
pending, so a third pull is handed S2 again from the store — the same
SubJob is returned to workers w2 and w3. -/
theorem C2_double_assignment :
    ((get_next_job twoBatchState "w1").1.map (·.sub_job_id) = some "S1") ∧
    ((get_next_job (get_next_job twoBatchState "w1").2 "w2").1.map (·.sub_job_id) =
      some "S2") ∧
    (subJobStatus (get_next_job (get_next_job twoBatchState "w1").2 "w2").2 "S2" =
      some Status.pending) ∧
    ((get_next_job (get_next_job (get_next_job twoBatchState "w1").2 "w2").2 "w3").1.map
        (·.sub_job_id) = some "S2") ∧
    ((findSubJob
        (get_next_job (get_next_job (get_next_job twoBatchState "w1").2 "w2").2 "w3").2
        "S2").map (·.worker_id) = some (some "w3")) := by
  decide

/-- Claim C3, counterexample: completing the only sub-job of a running
job with success = False makes every sub-job terminal with one failed,
yet the parent job's status stays running — it is never set to failed. -/
theorem C3_counterexample :
    subJobStatus (complete_sub_job oneRunningState "S1" false none) "S1" =
      some Status.failed ∧
    jobStatus (complete_sub_job oneRunningState "S1" false none) "J" =
      some Status.running ∧
    Status.running ≠ Status.failed := by
  refine ⟨by decide, by decide, by decide⟩

/-- Claim C3, amended: after `complete_sub_job`, the parent job is marked
completed exactly when every one of its sub-jobs is completed; otherwise
— in particular when some sub-job is failed — the parent's status is left
unchanged and is never set to failed. -/
theorem C3_amended_parent_status (st : QMState) (sid : String) (succ : Bool)
    (err : Option String) (r0 : SubJobRow) (j0 : JobRow)
    (hfind : findSubJob st sid = some r0)
    (hjob : st.jobs.find? (fun j => decide (j.id = r0.parent_job_id)) = some j0) :
    ((∀ x ∈ subJobStatuses (complete_sub_job st sid succ err) r0.parent_job_id,
        x = Status.completed) →
      jobStatus (complete_sub_job st sid succ err) r0.parent_job_id =
        some Status.completed) ∧
    ((∃ x ∈ subJobStatuses (complete_sub_job st sid succ err) r0.parent_job_id,
        x ≠ Status.completed) →
      jobStatus (complete_sub_job st sid succ err) r0.parent_job_id = some j0.status) := by
  have hjs := jobStatus_complete st sid succ err r0 j0 hfind hjob
  constructor
  · intro hall
    have hct : completedCount (complete_sub_job st sid succ err) r0.parent_job_id =
        subJobCount (complete_sub_job st sid succ err) r0.parent_job_id :=
      (completed_eq_total_iff _ _).mpr hall
    rw [hjs, if_pos hct]
  · rintro ⟨x, hx, hxne⟩
    have hct : ¬(completedCount (complete_sub_job st sid succ err) r0.parent_job_id =
        subJobCount (complete_sub_job st sid succ err) r0.parent_job_id) := by
      intro h
      exact hxne ((completed_eq_total_iff _ _).mp h x hx)
    rw [hjs, if_neg hct]

/-- Claim C3, witness: the amended statement on a one-batch job whose
sub-job fails. -/
theorem C3_witness :
    ((∀ x ∈ subJobStatuses (complete_sub_job oneRunningState "S1" false none) "J",
        x = Status.completed) →
      jobStatus (complete_sub_job oneRunningState "S1" false none) "J" =
        some Status.completed) ∧
    ((∃ x ∈ subJobStatuses (complete_sub_job oneRunningState "S1" false none) "J",
        x ≠ Status.completed) →
      jobStatus (complete_sub_job oneRunningState "S1" false none) "J" =
        some Status.running) :=
  C3_amended_parent_status oneRunningState "S1" false none
    (mkRunningSub "S1" "J" 1 "1-2" "w1") (mkRunningJob "J" "normal" 1)
    (by decide) (by decide)

/-- Claim C4, counterexample: completing the only sub-job of a one-batch
job stores progress 100 — the percentage (completed/K)*100 — not the
claimed fraction completed/K = 1 in [0, 1]. -/
theorem C4_counterexample :
    jobProgress (complete_sub_job oneRunningState "S1" true none) "J" = some 100 ∧
    (100 : Rat) ≠ 1 := by
  constructor
  · have h : jobProgress (complete_sub_job oneRunningState "S1" true none) "J" =
        some (((1 : Nat) : Rat) / ((1 : Nat) : Rat) * 100) := by rfl
    rw [h]
    norm_num
  · norm_num

/-- Claim C4, amended: after a valid `complete_sub_job` call (the target
sub-job is running) on a job with K = subJobCount sub-jobs, the stored
progress is (completed_count / K) * 100, a value in [0, 100]; the
completed count grows by 1 exactly on success, the stored percentage
never decreases, and over any valid sequence of completion calls the
completed count — hence the progress — is monotonically non-decreasing. -/
theorem C4_amended_progress (st : QMState) (sid : String) (succ : Bool)
    (err : Option String) (r0 : SubJobRow)
    (hnd : (st.sub_jobs.map (·.id)).Nodup)
    (hfind : findSubJob st sid = some r0)
    (hrun : r0.status = Status.running) :
    jobProgress (complete_sub_job st sid succ err) r0.parent_job_id =
      (st.jobs.find? (fun j => decide (j.id = r0.parent_job_id))).map (fun _ =>
        ((completedCount (complete_sub_job st sid succ err) r0.parent_job_id : Rat) /
          (subJobCount st r0.parent_job_id : Rat)) * 100) ∧
    subJobCount (complete_sub_job st sid succ err) r0.parent_job_id =
      subJobCount st r0.parent_job_id ∧
    completedCount (complete_sub_job st sid succ err) r0.parent_job_id =
      completedCount st r0.parent_job_id + (if succ then 1 else 0) ∧
    (0 : Rat) ≤
      ((completedCount (complete_sub_job st sid succ err) r0.parent_job_id : Rat) /
        (subJobCount st r0.parent_job_id : Rat)) * 100 ∧
    ((completedCount (complete_sub_job st sid succ err) r0.parent_job_id : Rat) /
        (subJobCount st r0.parent_job_id : Rat)) * 100 ≤ 100 ∧
    ((completedCount st r0.parent_job_id : Rat) /
        (subJobCount st r0.parent_job_id : Rat)) * 100 ≤
      ((completedCount (complete_sub_job st sid succ err) r0.parent_job_id : Rat) /
        (subJobCount st r0.parent_job_id : Rat)) * 100 ∧
    (∀ calls, ValidSeq st calls →
      completedCount st r0.parent_job_id ≤
        completedCount (completeMany st calls) r0.parent_job_id) := by
  have hK := subJobCount_complete st sid succ err r0.parent_job_id
  have hKpos : 0 < subJobCount st r0.parent_job_id := subJobCount_pos st sid r0 hfind
  have hcc := completedCount_complete_eq st sid succ err r0 hnd hfind r0.parent_job_id
  have hnc : ¬(r0.parent_job_id = r0.parent_job_id ∧ r0.status = Status.completed) := by
    rw [hrun]
    rintro ⟨-, h⟩
    exact Status.noConfusion h
  rw [if_neg hnc] at hcc
  have hceq : completedCount (complete_sub_job st sid succ err) r0.parent_job_id =
      completedCount st r0.parent_job_id + (if succ then 1 else 0) := by
    cases succ
    · simpa [completeStatus] using hcc
    · simpa [completeStatus] using hcc
  have hle : completedCount (complete_sub_job st sid succ err) r0.parent_job_id ≤
      subJobCount st r0.parent_job_id := hK ▸ completedCount_le _ _
  have hKposQ : (0 : Rat) < (subJobCount st r0.parent_job_id : Rat) := by
    exact_mod_cast hKpos
  have hjp := jobProgress_complete st sid succ err r0 hfind
  simp only [hK, hKpos, if_true] at hjp
  have hdiv1 : ((completedCount (complete_sub_job st sid succ err) r0.parent_job_id : Rat) /
      (subJobCount st r0.parent_job_id : Rat)) ≤ 1 := by
    rw [div_le_one hKposQ]
    exact_mod_cast hle
  refine ⟨hjp, hK, hceq, ?_, ?_, ?_, ?_⟩
  · positivity
  · calc ((completedCount (complete_sub_job st sid succ err) r0.parent_job_id : Rat) /
        (subJobCount st r0.parent_job_id : Rat)) * 100 ≤ 1 * 100 :=
          mul_le_mul_of_nonneg_right hdiv1 (by norm_num)
      _ = 100 := one_mul 100
  · refine mul_le_mul_of_nonneg_right ?_ (by norm_num)
    rw [div_le_div_iff_of_pos_right hKposQ]
    have : completedCount st r0.parent_job_id ≤
        completedCount (complete_sub_job st sid succ err) r0.parent_job_id := by
      omega
    exact_mod_cast this
  · intro calls hv
    exact validSeq_completedCount_le r0.parent_job_id calls st hnd hv

/-- Claim C4, witness: the amended statement on a one-batch job whose
sub-job completes successfully. -/
theorem C4_witness :
    jobProgress (complete_sub_job oneRunningState "S1" true none) "J" =
      (oneRunningState.jobs.find? (fun j => decide (j.id = "J"))).map (fun _ =>
        ((completedCount (complete_sub_job oneRunningState "S1" true none) "J" : Rat) /
          (subJobCount oneRunningState "J" : Rat)) * 100) ∧
    subJobCount (complete_sub_job oneRunningState "S1" true none) "J" =
      subJobCount oneRunningState "J" ∧
    completedCount (complete_sub_job oneRunningState "S1" true none) "J" =
      completedCount oneRunningState "J" + (if true then 1 else 0) ∧
    (0 : Rat) ≤
      ((completedCount (complete_sub_job oneRunningState "S1" true none) "J" : Rat) /
        (subJobCount oneRunningState "J" : Rat)) * 100 ∧
    ((completedCount (complete_sub_job oneRunningState "S1" true none) "J" : Rat) /
        (subJobCount oneRunningState "J" : Rat)) * 100 ≤ 100 ∧
    ((completedCount oneRunningState "J" : Rat) /
        (subJobCount oneRunningState "J" : Rat)) * 100 ≤
      ((completedCount (complete_sub_job oneRunningState "S1" true none) "J" : Rat) /
        (subJobCount oneRunningState "J" : Rat)) * 100 ∧
    (∀ calls, ValidSeq oneRunningState calls →
      completedCount oneRunningState "J" ≤
        completedCount (completeMany oneRunningState calls) "J") :=
  C4_amended_progress oneRunningState "S1" true none
    (mkRunningSub "S1" "J" 1 "1-2" "w1") (by decide) (by decide) (by decide)

/-- Claim C7, counterexample: re-reporting a completed sub-job with
success = False is not a no-op — the stored status flips to failed and
the parent progress is recomputed from 100 down to 0, although the
response is still 200. -/
theorem C7_counterexample :
    subJobStatus doneState "S1" = some Status.completed ∧
    subJobStatus (complete_sub_job doneState "S1" false none) "S1" = some Status.failed ∧
    jobProgress doneState "J" = some 100 ∧
    jobProgress (complete_sub_job doneState "S1" false none) "J" = some 0 ∧
    (handle_jobs_complete doneState ⟨some "S1", some "w2", some false, none⟩).1 =
      (200, "updated") ∧
    (100 : Rat) ≠ 0 := by
  refine ⟨by decide, by decide, ?_, ?_, by decide, by norm_num⟩
  · have h : jobProgress doneState "J" =
        some (((1 : Nat) : Rat) / ((1 : Nat) : Rat) * 100) := rfl
    rw [h]
    norm_num
  · have h : jobProgress (complete_sub_job doneState "S1" false none) "J" =
        some (((0 : Nat) : Rat) / ((1 : Nat) : Rat) * 100) := by rfl
    rw [h]
    norm_num

/-- Claim C7, amended: re-reporting a terminal sub-job with the same
success flag it terminated with keeps the stored status and the parent
progress unchanged, and the response is 200; with the opposite flag the
status is overwritten (see the counterexample). -/
theorem C7_amended_idempotence (st : QMState) (sid wid : String) (succ : Bool)
    (err : Option String) (r0 : SubJobRow)
    (hnd : (st.sub_jobs.map (·.id)).Nodup)
    (hfind : findSubJob st sid = some r0)
    (hterm : r0.status = completeStatus succ)
    (hprog : jobProgress st r0.parent_job_id =
      some (((completedCount st r0.parent_job_id : Rat) /
        (subJobCount st r0.parent_job_id : Rat)) * 100)) :
    subJobStatus (complete_sub_job st sid succ err) sid = some r0.status ∧
    jobProgress (complete_sub_job st sid succ err) r0.parent_job_id =
      jobProgress st r0.parent_job_id ∧
    (handle_jobs_complete st ⟨some sid, some wid, some succ, err⟩).1 = (200, "updated") := by
  refine ⟨?_, ?_, rfl⟩
  · rw [subJobStatus_complete st sid succ err r0 hfind, hterm]
  · have hK := subJobCount_complete st sid succ err r0.parent_job_id
    have hKpos : 0 < subJobCount st r0.parent_job_id := subJobCount_pos st sid r0 hfind
    have hcc := completedCount_complete_eq st sid succ err r0 hnd hfind r0.parent_job_id
    have hcond : (r0.parent_job_id = r0.parent_job_id ∧ r0.status = Status.completed) ↔
        (r0.parent_job_id = r0.parent_job_id ∧ completeStatus succ = Status.completed) := by
      rw [hterm]
    have hceq : completedCount (complete_sub_job st sid succ err) r0.parent_job_id =
        completedCount st r0.parent_job_id := by
      by_cases h : r0.parent_job_id = r0.parent_job_id ∧
          completeStatus succ = Status.completed
      · rw [if_pos (hcond.mpr h), if_pos h] at hcc
        omega
      · rw [if_neg (fun hh => h (hcond.mp hh)), if_neg h] at hcc
        omega
    have hjp := jobProgress_complete st sid succ err r0 hfind
    simp only [hK, hKpos, if_true, hceq] at hjp
    rcases hj : st.jobs.find? (fun j => decide (j.id = r0.parent_job_id)) with _ | j0
    · rw [jobProgress, hj] at hprog
      exact absurd hprog (by simp)
    · rw [hj] at hjp
      rw [hjp, jobProgress, hj]
      simp only [Option.map_some']
      rw [jobProgress, hj] at hprog
      simp only [Option.map_some', Option.some.injEq] at hprog
      rw [hprog]

/-- Claim C7, witness: the amended statement on a job whose single
sub-job is already completed and is re-reported with success = True. -/
theorem C7_witness :
    subJobStatus (complete_sub_job doneState "S1" true none) "S1" =
      some Status.completed ∧
    jobProgress (complete_sub_job doneState "S1" true none) "J" =
      jobProgress doneState "J" ∧
    (handle_jobs_complete doneState ⟨some "S1", some "w1", some true, none⟩).1 =
      (200, "updated") :=
  C7_amended_idempotence doneState "S1" "w1" true none
    { id := "S1", parent_job_id := "J", batch_number := 1, frame_range := "1-2",
      status := Status.completed, worker_id := some "w1", error_message := none }
    (by decide) (by decide) (by decide) (by rfl)

/-- Claim C6, counterexample: a completion reported by worker w2 for a
sub-job running under worker w1 is not rejected with 409 NotAssigned —
the handler returns 200 "updated" and the stored status is overwritten. -/
theorem C6_counterexample :
    (handle_jobs_complete oneRunningState ⟨some "S1", some "w2", some true, none⟩).1 =
      (200, "updated") ∧
    (200 : Nat) ≠ 409 ∧
    subJobStatus oneRunningState "S1" = some Status.running ∧
    subJobStatus (handle_jobs_complete oneRunningState
      ⟨some "S1", some "w2", some true, none⟩).2 "S1" = some Status.completed := by
  refine ⟨by decide, by decide, by decide, by decide⟩

/-- Claim C6, amended: a /jobs/complete request with all required fields
present always gets 200 "updated" and runs `complete_sub_job`, with no
check of the reporting worker or of the sub-job's status; in a completion
race both reporters get 200 and the second overwrites the first's stored
status. -/
theorem C6_amended_complete_response :
    (∀ (st : QMState) (sid wid : String) (succ : Bool) (err : Option String),
      handle_jobs_complete st ⟨some sid, some wid, some succ, err⟩ =
        ((200, "updated"), complete_sub_job st sid succ err)) ∧
    (handle_jobs_complete oneRunningState ⟨some "S1", some "w1", some true, none⟩).1 =
      (200, "updated") ∧
    (handle_jobs_complete (handle_jobs_complete oneRunningState
        ⟨some "S1", some "w1", some true, none⟩).2
      ⟨some "S1", some "w2", some false, some "crash"⟩).1 = (200, "updated") ∧
    subJobStatus (handle_jobs_complete oneRunningState
        ⟨some "S1", some "w1", some true, none⟩).2 "S1" = some Status.completed ∧
    subJobStatus (handle_jobs_complete (handle_jobs_complete oneRunningState
        ⟨some "S1", some "w1", some true, none⟩).2
      ⟨some "S1", some "w2", some false, some "crash"⟩).2 "S1" = some Status.failed := by
  refine ⟨fun st sid wid succ err => rfl, by decide, by decide, by decide, by decide⟩

/-- Claim C5, counterexample: after one pull prefetches J1's second batch
into the cache, a critical job J2 is submitted; the next pull is served
the cached normal-priority batch J1b2 although the critical batch J2b1 is
pending — the selection is not always first in the claimed priority
order. -/
theorem C5_counterexample :
    ((get_next_job staleState2 "w2").1.map (·.sub_job_id) = some "J1b2") ∧
    subJobStatus staleState2 "J2b1" = some Status.pending ∧
    ((staleState2.jobs.find? (fun j => decide (j.id = "J2"))).map (·.priority) =
      some "critical") ∧
    ((staleState2.jobs.find? (fun j => decide (j.id = "J1"))).map (·.priority) =
      some "normal") ∧
    priorityRank "critical" < priorityRank "normal" := by
  decide

/-- Claim C5, amended: a pull that is not served from the prefetch cache
selects a pending sub-job minimal in the order priority critical > high >
normal > low, then parent created_at ascending (batch order within a job
following the stable row order); when all batches are present before the
first pull, repeated pulls drain them in exactly the claimed order, as in
the scenario J1 (normal, 3 batches) then J2 (critical, 2 batches). -/
theorem C5_amended_selection :
    ((pullResults overtakeState "w1" 5).map (·.map (·.sub_job_id)) =
      [some "J2b1", some "J2b2", some "J1b1", some "J1b2", some "J1b3"]) ∧
    (∀ (st : QMState) (wid : String) (d : Descriptor),
      (st.cache_enabled = false ∨ get_job_from_cache wid st.job_cache = none) →
      (get_next_job st wid).1 = some d →
      ∃ sj j, (sj, j) ∈ pendingRows st ∧
        d = ⟨sj.id, sj.parent_job_id, sj.frame_range⟩ ∧
        ∀ x ∈ pendingRows st,
          priorityRank j.priority < priorityRank x.2.priority ∨
          (priorityRank j.priority = priorityRank x.2.priority ∧
            j.created_at ≤ x.2.created_at)) :=
  ⟨by decide, get_next_job_db_min⟩

/-- Claim C5, witness: the store-path selection applied to the overtake
scenario's first pull, which returns critical J2's first batch. -/
theorem C5_witness :
    ∃ sj j, (sj, j) ∈ pendingRows overtakeState ∧
      (⟨"J2b1", "J2", "1-1"⟩ : Descriptor) = ⟨sj.id, sj.parent_job_id, sj.frame_range⟩ ∧
      ∀ x ∈ pendingRows overtakeState,
        priorityRank j.priority < priorityRank x.2.priority ∨
        (priorityRank j.priority = priorityRank x.2.priority ∧
          j.created_at ≤ x.2.created_at) :=
  C5_amended_selection.2 overtakeState "w1" ⟨"J2b1", "J2", "1-1"⟩ (Or.inr rfl) (by decide)

/-- Claim C10: pausing a job (or all jobs) moves only its running
sub-jobs to paused; a pending sub-job keeps its row unchanged and remains
selectable — in the scenario, after pause_job the pending batch S2 of the
paused job J is still handed out by get_next_job. -/
theorem C10_pause_pending_selectable :
    (∀ (st : QMState) (jid sid : String) (r : SubJobRow),
      findSubJob st sid = some r → r.status ≠ Status.running →
      findSubJob (pause_job st jid) sid = some r) ∧
    (∀ (st : QMState) (jid sid : String) (r : SubJobRow),
      findSubJob st sid = some r → r.parent_job_id = jid → r.status = Status.running →
      findSubJob (pause_job st jid) sid = some { r with status := Status.paused }) ∧
    (∀ (st : QMState) (sid : String) (r : SubJobRow),
      findSubJob st sid = some r → r.status ≠ Status.running →
      findSubJob (pause_all_jobs st) sid = some r) ∧
    (jobStatus (pause_job pausedScenarioState "J") "J" = some Status.paused ∧
     subJobStatus (pause_job pausedScenarioState "J") "S1" = some Status.paused ∧
     subJobStatus (pause_job pausedScenarioState "J") "S2" = some Status.pending ∧
     ((get_next_job (pause_job pausedScenarioState "J") "w2").1.map (·.sub_job_id) =
       some "S2") ∧
     subJobStatus (get_next_job (pause_job pausedScenarioState "J") "w2").2 "S2" =
       some Status.running) := by
  refine ⟨?_, ?_, ?_, by decide⟩
  · intro st jid sid r hfind hns
    rw [pause_job_findSubJob st jid sid r hfind, if_neg (fun h => hns h.2)]
  · intro st jid sid r hfind hp hs
    rw [pause_job_findSubJob st jid sid r hfind, if_pos ⟨hp, hs⟩]
  · intro st sid r hfind hns
    rw [pause_all_findSubJob st sid r hfind, if_neg hns]

/-- Claim C10, witness: the pending batch of the paused job keeps its row
unchanged. -/
theorem C10_witness :
    findSubJob (pause_job pausedScenarioState "J") "S2" =
      some (mkPendingSub "S2" "J" 2 "4-5") :=
  C10_pause_pending_selectable.1 pausedScenarioState "J" "S2"
    (mkPendingSub "S2" "J" 2 "4-5") (by decide) (by decide)
